import Mathlib

/-!
Shallow embedding of the AIScraper media organizer core (the latest
evolution of `organizer.ts`, plus the grouping step of the earlier
evolution where a claim refers to it).  Filesystem effects are modelled
as explicit action lists, and the external AI classification collaborator
is modelled as an oracle argument.  JavaScript objects used as maps are
modelled as association lists in insertion order, mirroring the iteration
order of string-keyed JS objects.
-/

namespace AIScraper

/-! ### Path helpers, modelling the Node `path` functions used by the source -/

/-- Suffix of the list starting at the last occurrence of a dot character. -/
def lastDotSuffix : List Char → Option (List Char)
  | [] => none
  | c :: cs =>
    match lastDotSuffix cs with
    | some suf => some suf
    | none => if c = '.' then some (c :: cs) else none

/-- Model of Node `path.extname` on a plain filename: the substring from the
last dot onward, or empty when there is no dot past the first character. -/
def extname (s : String) : String :=
  match s.data with
  | [] => ""
  | _ :: rest =>
    match lastDotSuffix rest with
    | some suf => String.mk suf
    | none => ""

/-- Model of the `name` field of Node `path.parse`: the filename with the
`extname` suffix removed. -/
def parseNameNoExt (s : String) : String :=
  String.mk (s.data.take (s.data.length - (extname s).data.length))

/-- Model of Node `path.join` for the simple two-argument joins the source
performs (no `..` normalization is exercised by any claim). -/
def pathJoin (a b : String) : String :=
  if a = "" then b else if b = "" then a else a ++ "/" ++ b

/-- Model of Node `path.dirname` on a posix path. -/
def dirname (s : String) : String :=
  match lastSlashPos s.data with
  | none => "."
  | some 0 => "/"
  | some i => String.mk (s.data.take i)
where
  /-- Index of the last slash in a character list. -/
  lastSlashPos : List Char → Option Nat
    | [] => none
    | c :: cs =>
      match lastSlashPos cs with
      | some i => some (i + 1)
      | none => if c = '/' then some 0 else none

/-- Nonempty path components of a slash-separated path. -/
def pathComponents (s : String) : List String :=
  (s.split (· = '/')).filter (· ≠ "")

/-- Drop the common prefix of two component lists. -/
def dropCommon : List String → List String → List String × List String
  | a :: as, b :: bs => if a = b then dropCommon as bs else (a :: as, b :: bs)
  | as, bs => (as, bs)

/-- Model of Node `path.relative from to` for already-absolute posix paths:
strip the common prefix, then climb out of the remaining `from` components
and descend into the remaining `to` components. -/
def relativePath (fromDir toPath : String) : String :=
  let p := dropCommon (pathComponents fromDir) (pathComponents toPath)
  String.intercalate "/" (p.1.map (fun _ => "..") ++ p.2)

/-! ### Decimal strings: JS `String(n)`, `padStart(2, '0')` and `parseInt` -/

/-- Decimal digits of a positive number, most significant first; the first
argument is recursion fuel (`fuel ≥ n` suffices). -/
def natDigitsAux : Nat → Nat → List Char
  | 0, _ => []
  | _ + 1, 0 => []
  | fuel + 1, n + 1 => natDigitsAux fuel ((n + 1) / 10) ++ [Nat.digitChar ((n + 1) % 10)]

/-- Model of JS `String(n)` for a natural number. -/
def jsStringNat (n : Nat) : String :=
  if n = 0 then "0" else String.mk (natDigitsAux n n)

/-- Model of JS `s.padStart(2, '0')`. -/
def padStart2 (s : String) : String :=
  if 2 ≤ s.length then s else String.mk (List.replicate (2 - s.length) '0' ++ s.data)

/-- One step of decimal accumulation, as JS `parseInt` does on a digit. -/
def parseStep (a : Nat) (c : Char) : Nat := 10 * a + (c.toNat - 48)

/-- Decimal value of a digit string, as JS `parseInt(s, 10)` computes on an
all-digit string such as a `\d{2,}` capture group. -/
def parseNatDigits (cs : List Char) : Nat := cs.foldl parseStep 0

/-- Model of JS `parseInt(s, 10)` restricted to a leading run of digits;
`none` models the `NaN` result. -/
def parseIntNat (s : String) : Option Nat :=
  let ds := s.data.takeWhile Char.isDigit
  if ds.isEmpty then none else some (parseNatDigits ds)

/-! ### Data model -/

/-- Media type returned by the classifier. -/
inductive MediaType
  | show
  | movie
  | unknown
deriving DecidableEq, Repr

/-- A source file: `sourcePath` plus its original filename; `role` is set
only on sidecar files after role classification. -/
structure MediaFile where
  sourcePath : String
  originalFilename : String
  role : Option String := none
deriving DecidableEq, Repr

/-- Classification result returned by the AI collaborator. -/
structure MediaInfo where
  title : String
  season : Option Nat := none
  episode : Option Nat := none
  type : MediaType
  year : Option Nat := none
deriving DecidableEq, Repr

/-- One classified episode or movie with its primary video file and sidecars. -/
structure EpisodeOrMovie where
  season : Option Nat
  episode : Option Nat
  videoFile : MediaFile
  sidecarFiles : List MediaFile
  aiInfo : MediaInfo
deriving DecidableEq, Repr

/-- Aggregated per-series record with vote tallies. -/
structure MediaSeries where
  titleVotes : List (String × Nat)
  yearVotes : List (String × Nat)
  items : List EpisodeOrMovie
  type : MediaType
  canonicalTitle : Option String := none
  canonicalYear : Option Nat := none
deriving DecidableEq, Repr

/-- The blueprint: a string-keyed JS object of series records, modelled as an
association list in key insertion order. -/
abbrev MediaBlueprint := List (String × MediaSeries)

/-! ### Association-list operations with JS object semantics -/

/-- Lookup of a key in a JS-object association list. -/
def alookup {α : Type} (m : List (String × α)) (k : String) : Option α :=
  (m.find? (fun p => p.1 == k)).map Prod.snd

/-- JS object property write: update the value in place when the key exists,
append the binding otherwise. -/
def aset {α : Type} (m : List (String × α)) (k : String) (v : α) : List (String × α) :=
  if (alookup m k).isSome then m.map (fun p => if p.1 == k then (p.1, v) else p)
  else m ++ [(k, v)]

/-- Update the value at an existing key in place. -/
def aupdate {α : Type} (m : List (String × α)) (k : String) (f : α → α) :
    List (String × α) :=
  m.map (fun p => if p.1 == k then (p.1, f p.2) else p)

/-- Model of `Object.assign(target, source)` on numeric tallies: write every
binding of `source` into `target`, overwriting values at keys present in both. -/
def objAssign (target source : List (String × Nat)) : List (String × Nat) :=
  source.foldl (fun acc p => aset acc p.1 p.2) target

/-- Model of JS `trim`: drop whitespace from both ends. -/
def strTrim (s : String) : String :=
  String.mk (((s.data.dropWhile Char.isWhitespace).reverse.dropWhile Char.isWhitespace).reverse)

/-- Whether a character list ends with the given suffix. -/
def endsWithList (suffix cs : List Char) : Bool :=
  cs.reverse.take suffix.length = suffix.reverse

/-- ASCII lowercase conversion of one character, as JS `toLowerCase` acts on
the extension strings the source lowercases. -/
def charToLower (c : Char) : Char :=
  if 'A' ≤ c ∧ c ≤ 'Z' then Char.ofNat (c.toNat + 32) else c

/-- Model of JS `toLowerCase` on an extension string. -/
def strToLower (s : String) : String := String.mk (s.data.map charToLower)

/-! ### ScanEngine: grouping, tasks, chunked classification, blueprint fold -/

/-- The recognized primary video extensions (`VIDEO_EXTENSIONS`). -/
def videoExtensions : List String :=
  [".mkv", ".mp4", ".avi", ".mov", ".wmv", ".flv", ".webm", ".ts", ".rmvb"]

/-- The fixed same-name sidecar extensions (`SAME_NAME_EXTENSIONS`). -/
def sameNameExtensions : List String :=
  [".nfo", ".ass", ".ssa", ".srt", ".sub", ".sup", ".vtt", ".lrc"]

/-- Grouping step of the current `scanDirectory`: bucket a directory's file
entries by base name with the extension stripped, in insertion order. -/
def fileGroups (dir : String) (entries : List String) : List (String × List MediaFile) :=
  entries.foldl
    (fun gs name =>
      let baseName := parseNameNoExt name
      let file : MediaFile := { sourcePath := pathJoin dir name, originalFilename := name }
      match alookup gs baseName with
      | none => gs ++ [(baseName, [file])]
      | some fs => aset gs baseName (fs ++ [file]))
    []

/-- Drop a trailing `-thumb` from a base name, as the earlier `scanDirectory`
evolution does with its end-anchored thumb-suffix `replace`. -/
def stripThumbSuffix (s : String) : String :=
  if endsWithList "-thumb".data s.data then String.mk (s.data.take (s.data.length - 6)) else s

/-- Grouping step of the earlier `scanDirectory` evolution: like `fileGroups`
but with a trailing `-thumb` stripped from the base name first. -/
def fileGroupsThumbStripped (dir : String) (entries : List String) :
    List (String × List MediaFile) :=
  entries.foldl
    (fun gs name =>
      let baseName := stripThumbSuffix (parseNameNoExt name)
      let file : MediaFile := { sourcePath := pathJoin dir name, originalFilename := name }
      match alookup gs baseName with
      | none => gs ++ [(baseName, [file])]
      | some fs => aset gs baseName (fs ++ [file]))
    []

/-- A primary video file together with its sidecar files. -/
structure VideoTask where
  videoFile : MediaFile
  sidecarFiles : List MediaFile
deriving DecidableEq, Repr

/-- Task formation: keep the groups containing a file with a recognized video
extension; the first such file is the primary, the rest are sidecars. -/
def videoTasks (groups : List (String × List MediaFile)) : List VideoTask :=
  groups.filterMap
    (fun g =>
      (g.2.find? (fun f => videoExtensions.contains (strToLower (extname f.originalFilename)))).map
        (fun v => { videoFile := v, sidecarFiles := g.2.filter (fun f => f.sourcePath != v.sourcePath) }))

/-- Model of `formatNewFilename` (latest `nameParser.ts` evolution): the
standardized display base name, or `none` when the classification is unusable. -/
def formatNewFilename (info : MediaInfo) : Option String :=
  if info.title = "" ∨ info.type = MediaType.unknown then none
  else
    let cleanTitle := sanitizeTitle info.title
    match info.type, info.season, info.episode, info.year with
    | MediaType.show, some s, some e, _ =>
      some (cleanTitle ++ " S" ++ padStart2 (jsStringNat s) ++ "E" ++ padStart2 (jsStringNat e))
    | MediaType.show, _, _, _ => none
    | _, _, _, some y => if y ≠ 0 then some (cleanTitle ++ " (" ++ jsStringNat y ++ ")") else some cleanTitle
    | _, _, _, none => some cleanTitle
where
  /-- Strip the characters illegal in filesystem names and trim whitespace,
  as `title.replace(/[<>:"\/\\|?*]/g, '').trim()` does. -/
  sanitizeTitle (t : String) : String :=
    strTrim (String.mk (t.data.filter (fun c => !([ '<', '>', ':', '"', '/', '\\', '|', '?', '*' ].contains c))))

/-- Short name for the sanitization used across the organizer. -/
abbrev sanitizeTitle := formatNewFilename.sanitizeTitle

/-- Model of `analyzeAndFormatFilename` with the AI call abstracted into an
oracle value: no extension means no call; otherwise the pair of the formatted
name and the classification. -/
def analyzeAndFormatFilename (originalFilename : String) (oracle : Option MediaInfo) :
    Option String × Option MediaInfo :=
  if extname originalFilename = "" then (none, none)
  else
    match oracle with
    | none => (none, none)
    | some info => (formatNewFilename info, some info)

/-- Outcome of the external collaborator for one video task: `ai` is the
settled primary-classification call (`Except.error` models a rejected
promise, `Except.ok none` a caught failure), and `roles` gives the role
classification per sidecar filename. -/
structure TaskOracle where
  ai : Except Unit (Option MediaInfo)
  roles : String → Option String

/-- Body of one classification task of the current `scanDirectory`: build the
`EpisodeOrMovie` when both the classification and the display name are
present, settle to `none` otherwise, and propagate a rejection. -/
def runTask (t : VideoTask) (o : TaskOracle) : Except Unit (Option EpisodeOrMovie) :=
  match o.ai with
  | Except.error e => Except.error e
  | Except.ok oinfo =>
    let r := analyzeAndFormatFilename t.videoFile.originalFilename oinfo
    match r.2, r.1 with
    | some info, some _ =>
      Except.ok (some
        { season := info.season
          episode := info.episode
          videoFile := t.videoFile
          sidecarFiles := t.sidecarFiles.map (fun f => { f with role := o.roles f.originalFilename })
          aiInfo := info })
    | _, _ => Except.ok none

/-- Body of one task of the earlier `scanDirectory` evolution: no sidecar-role
analysis, and an explicit `unknown` guard instead of the display-name check. -/
def runTaskOld (t : VideoTask) (oracle : Except Unit (Option MediaInfo)) :
    Except Unit (Option EpisodeOrMovie) :=
  match oracle with
  | Except.error e => Except.error e
  | Except.ok oinfo =>
    match (analyzeAndFormatFilename t.videoFile.originalFilename oinfo).2 with
    | none => Except.ok none
    | some info =>
      if info.type = MediaType.unknown then Except.ok none
      else
        Except.ok (some
          { season := info.season
            episode := info.episode
            videoFile := t.videoFile
            sidecarFiles := t.sidecarFiles
            aiInfo := info })

/-- Fold rule `addToBlueprint`: drop `unknown` items, get-or-create the record
for the raw title, append the item and bump the title and year tallies. -/
def addToBlueprint (bp : MediaBlueprint) (item : EpisodeOrMovie) : MediaBlueprint :=
  if item.aiInfo.type = MediaType.unknown then bp
  else
    let title := item.aiInfo.title
    let bp :=
      if (alookup bp title).isSome then bp
      else bp ++ [(title, { titleVotes := [], yearVotes := [], items := [], type := item.aiInfo.type })]
    aupdate bp title (fun s =>
      let s := { s with
        items := s.items ++ [item]
        titleVotes := aset s.titleVotes title ((alookup s.titleVotes title).getD 0 + 1) }
      match item.aiInfo.year with
      | some y => { s with yearVotes := aset s.yearVotes (jsStringNat y) ((alookup s.yearVotes (jsStringNat y)).getD 0 + 1) }
      | none => s)

/-- Extract the folded value of a settled result: only a fulfilled promise
with a non-null value contributes. -/
def okItem : Except Unit (Option EpisodeOrMovie) → Option EpisodeOrMovie
  | Except.ok (some i) => some i
  | _ => none

/-- Drain one chunk's settled results into the blueprint, in order, exactly as
the `chunkResults.forEach` fold does. -/
def foldResults (bp : MediaBlueprint) (rs : List (Except Unit (Option EpisodeOrMovie))) :
    MediaBlueprint :=
  rs.foldl
    (fun b r =>
      match okItem r with
      | some i => addToBlueprint b i
      | none => b)
    bp

/-- Settle a chunk: each task's promise resolves independently via its oracle. -/
def settleChunk (chunk : List (VideoTask × TaskOracle)) :
    List (Except Unit (Option EpisodeOrMovie)) :=
  chunk.map (fun p => runTask p.1 p.2)

/-- Chunked processing loop (`for i += concurrency`), fuelled for structural
termination; `fuel ≥ pairs.length` reproduces the source loop exactly for any
positive concurrency. -/
def processChunksAux : Nat → Nat → List (VideoTask × TaskOracle) → MediaBlueprint → MediaBlueprint
  | _, _, [], bp => bp
  | 0, _, _ :: _, bp => bp
  | fuel + 1, c, p :: ps, bp =>
    processChunksAux fuel c ((p :: ps).drop c) (foldResults bp (settleChunk ((p :: ps).take c)))

/-- Process all classification tasks of one directory in chunks of size `c`. -/
def processChunks (c : Nat) (pairs : List (VideoTask × TaskOracle)) (bp : MediaBlueprint) :
    MediaBlueprint :=
  processChunksAux pairs.length c pairs bp

/-- One directory level of the current `scanDirectory`: group the entries,
form the video tasks, pair them with their collaborator outcomes and drain
them chunkwise into the blueprint. -/
def scanDirectoryStep (dir : String) (entries : List String) (oracles : List TaskOracle)
    (c : Nat) (bp : MediaBlueprint) : MediaBlueprint :=
  processChunks c ((videoTasks (fileGroups dir entries)).zip oracles) bp

/-! ### ConsolidationEngine -/

/-- Model of `entries.reduce((a, b) => a[1] > b[1] ? a : b)[0]`: the key of the
first entry with the strictly highest count. -/
def reduceMaxKey : List (String × Nat) → String
  | [] => ""
  | h :: t => (t.foldl (fun a b => if a.2 > b.2 then a else b) h).1

/-- Elect `canonicalYear` for one record: untouched when there are no year
votes, otherwise the parsed majority key. -/
def electYear (s : MediaSeries) : MediaSeries :=
  if s.yearVotes.isEmpty then s
  else { s with canonicalYear := parseIntNat (reduceMaxKey s.yearVotes) }

/-- Year-election pass over every record of the final blueprint. -/
def electYears (bp : MediaBlueprint) : MediaBlueprint :=
  bp.map (fun p => (p.1, electYear p.2))

/-- The canonical record created on first merge into a canonical title: the
key as `canonicalTitle`, empty items and tallies, the type of the first
merged source record. -/
def freshRecord (ct : String) (ty : MediaType) : MediaSeries :=
  { canonicalTitle := some ct, items := [], titleVotes := [], yearVotes := [], type := ty }

/-- One iteration of the consolidation loop over a `(rawTitle, canonicalTitle)`
pair: skip when the raw record is missing, get-or-create the canonical record
(type taken from the first merged source), then append the items and
`Object.assign` the two tallies. -/
def mergeStep (raw : MediaBlueprint) (final : MediaBlueprint) (pair : String × String) :
    MediaBlueprint :=
  match alookup raw pair.1 with
  | none => final
  | some seriesToMerge =>
    let final :=
      if (alookup final pair.2).isSome then final
      else final ++ [(pair.2, freshRecord pair.2 seriesToMerge.type)]
    aupdate final pair.2 (fun t =>
      { t with
        items := t.items ++ seriesToMerge.items
        titleVotes := objAssign t.titleVotes seriesToMerge.titleVotes
        yearVotes := objAssign t.yearVotes seriesToMerge.yearVotes })

/-- Model of `consolidateBlueprint`: empty input short-circuits; a failed
collaborator (`none` mapping) propagates the raw blueprint unchanged;
otherwise merge along the mapping's pairs in order and elect the years. -/
def consolidateBlueprint (raw : MediaBlueprint) (canonicalTitleMap : Option (List (String × String))) :
    MediaBlueprint :=
  if raw.length = 0 then []
  else
    match canonicalTitleMap with
    | none => raw
    | some m => electYears (m.foldl (mergeStep raw) [])

/-! ### LinkSynchronizer -/

/-- A filesystem effect of the synchronizer: create a directory or link a
source file to a destination path. -/
inductive FsAction
  | mkdir (path : String)
  | link (source dest : String)
deriving DecidableEq, Repr

/-- The season and episode fragment written into a show link's filename:
letter `S`, the season zero-padded to two digits, letter `E`, the episode
zero-padded to two digits. -/
def seFragment (s e : Nat) : String :=
  "S" ++ padStart2 (jsStringNat s) ++ "E" ++ padStart2 (jsStringNat e)

/-- The identity string `generateLinks` checks against the existing-state set:
sanitized title, dash, unpadded `S<season>E<episode>`. -/
def uniqueIdOf (cleanTitle : String) (s e : Nat) : String :=
  cleanTitle ++ "-S" ++ jsStringNat s ++ "E" ++ jsStringNat e

/-- Final name of one sidecar link: same-name extensions reuse the base name
with the lowercased extension; anything else gets a role suffix when a
non-empty role was classified, then the lowercased extension. -/
def sidecarFinalName (base : String) (f : MediaFile) : String :=
  let sidecarExt := strToLower (extname f.originalFilename)
  if sameNameExtensions.contains sidecarExt then base ++ sidecarExt
  else base ++ roleSuffix f.role ++ sidecarExt
where
  /-- JS `file.role ? ('-' + file.role) : ''`, where an empty role string is falsy. -/
  roleSuffix : Option String → String
    | some r => if r = "" then "" else "-" ++ r
    | none => ""

/-- The directory creation and the primary and sidecar links for one item. -/
def linkSet (targetPath base : String) (item : EpisodeOrMovie) : List FsAction :=
  FsAction.mkdir targetPath ::
  FsAction.link item.videoFile.sourcePath
      (pathJoin targetPath (base ++ extname item.videoFile.originalFilename)) ::
  item.sidecarFiles.map (fun f => FsAction.link f.sourcePath (pathJoin targetPath (sidecarFinalName base f)))

/-- Actions produced for one item of a series by the `generateLinks` inner
loop: shows skip items lacking a season or episode and items whose identity
string is already in the existing-state set; movies always link under the
series directory name. -/
def itemActions (stype : MediaType) (cleanTitle seriesDirName seriesPath : String)
    (existing : List String) (item : EpisodeOrMovie) : List FsAction :=
  match stype with
  | MediaType.show =>
    match item.season, item.episode with
    | some s, some e =>
      if existing.contains (uniqueIdOf cleanTitle s e) then []
      else
        let targetPath := pathJoin seriesPath ("Season " ++ padStart2 (jsStringNat s))
        linkSet targetPath (cleanTitle ++ " " ++ seFragment s e) item
    | _, _ => []
  | _ => linkSet seriesPath seriesDirName item

/-- Actions produced for one series record: records without a canonical title
are skipped entirely; otherwise the sanitized title and the movie year suffix
determine the series directory and every item is processed in order. -/
def seriesActions (existing : List String) (targetRoot : String) (series : MediaSeries) :
    List FsAction :=
  match series.canonicalTitle with
  | none => []
  | some ct =>
    let cleanTitle := sanitizeTitle ct
    let seriesDirName :=
      match series.type, series.canonicalYear with
      | MediaType.movie, some y =>
        if y ≠ 0 then cleanTitle ++ " (" ++ jsStringNat y ++ ")" else cleanTitle
      | _, _ => cleanTitle
    let seriesPath := pathJoin targetRoot seriesDirName
    (series.items.map (itemActions series.type cleanTitle seriesDirName seriesPath existing)).flatten

/-- Model of `generateLinks` as the ordered list of filesystem actions it
performs for a consolidated blueprint. -/
def generateLinks (bp : MediaBlueprint) (existing : List String) (targetRoot : String) :
    List FsAction :=
  (bp.map (fun p => seriesActions existing targetRoot p.2)).flatten

/-- Error the filesystem reports for a link creation at a destination:
nothing, an already-existing destination, or any other failure. -/
inductive FsErr
  | eexist
  | other
deriving DecidableEq, Repr

/-- The filesystem's response per destination path. -/
structure FsEnv where
  errAt : String → Option FsErr

/-- The link target string passed to the filesystem: the path relative to the
destination's directory only for a soft link in relative path-mode, the
absolute source otherwise. -/
def resolvedLinkSource (linkType pathMode source destination : String) : String :=
  if linkType = "soft" ∧ pathMode = "relative" then relativePath (dirname destination) source
  else source

/-- Result of one `createLink` call: the stored `(target, destination)` pair
when the filesystem call succeeded, and whether an error was logged. -/
structure LinkResult where
  created : Option (String × String)
  logged : Bool
deriving DecidableEq, Repr

/-- Model of `createLink`: every error is caught, an `EEXIST` is silent and
creates nothing, any other error is logged and creates nothing. -/
def createLink (env : FsEnv) (linkType pathMode source destination : String) : LinkResult :=
  let target := resolvedLinkSource linkType pathMode source destination
  match env.errAt destination with
  | none => { created := some (target, destination), logged := false }
  | some FsErr.eexist => { created := none, logged := false }
  | some FsErr.other => { created := none, logged := true }

/-- The `(source, destination)` pairs of the link actions in a list. -/
def linksOf (acts : List FsAction) : List (String × String) :=
  acts.filterMap
    (fun a =>
      match a with
      | FsAction.link s d => some (s, d)
      | FsAction.mkdir _ => none)

/-- Execute the link actions of a synchronization run against a filesystem
response, one settled `createLink` result per link action. -/
def runLinkActions (env : FsEnv) (linkType pathMode : String) (acts : List FsAction) :
    List LinkResult :=
  acts.filterMap
    (fun a =>
      match a with
      | FsAction.link s d => some (createLink env linkType pathMode s d)
      | FsAction.mkdir _ => none)

/-! ### StateProbe -/

/-- Decide whether a character is one of the two cases of the letter given as
its lowercase code, for the case-insensitive regex letters. -/
def charCI (c lower upper : Char) : Bool := c = lower ∨ c = upper

/-- Try the pattern `S(\d{2,})E(\d{2,})` with the `i` flag at the start of the
character list: a case of `S`, a maximal run of at least two digits, a case of
`E`, a maximal run of at least two digits, parsed in decimal. -/
def matchSEAt : List Char → Option (Nat × Nat)
  | [] => none
  | c :: rest =>
    if charCI c 's' 'S' then
      let d1 := rest.takeWhile Char.isDigit
      if 2 ≤ d1.length then
        match rest.drop d1.length with
        | e :: rest2 =>
          if charCI e 'e' 'E' then
            let d2 := rest2.takeWhile Char.isDigit
            if 2 ≤ d2.length then some (parseNatDigits d1, parseNatDigits d2) else none
          else none
        | [] => none
      else none
    else none

/-- Leftmost match of the `S(\d{2,})E(\d{2,})` pattern in a character list. -/
def matchSE : List Char → Option (Nat × Nat)
  | [] => none
  | c :: rest =>
    match matchSEAt (c :: rest) with
    | some r => some r
    | none => matchSE rest

/-- Identity `buildExistingState` records for one symbolic link it finds: the
series name, dash, `S` and `E` with the parsed numbers rendered unpadded. -/
def probeEntryId (seriesName fileName : String) : Option String :=
  (matchSE fileName.data).map (fun p => seriesName ++ "-S" ++ jsStringNat p.1 ++ "E" ++ jsStringNat p.2)

/-! ### Shared concrete examples -/

/-- A minimal classified show item used by concrete witnesses. -/
def exItem (n : String) : EpisodeOrMovie :=
  { season := some 1
    episode := some 2
    videoFile := { sourcePath := "src/" ++ n ++ ".mkv", originalFilename := n ++ ".mkv" }
    sidecarFiles := []
    aiInfo := { title := n, season := some 1, episode := some 2, type := MediaType.show } }

/-! ### Claim C2 -/

/-- The directory entries of the grouping example. -/
def c2Entries : List String := ["Show.S01E01.mkv", "Show.S01E01.srt", "Show.S01E01-thumb.jpg"]

/-- A successful collaborator outcome for the grouping example. -/
def c2Oracle : TaskOracle :=
  { ai := Except.ok (some { title := "Show", season := some 1, episode := some 1, type := MediaType.show })
    roles := fun _ => none }

/-- C2 counterexample: the current `scanDirectory` groups the three entries by
the exact base name, so `Show.S01E01-thumb.jpg` lands in its own group and
the grouping step produces two groups, not one group of three. -/
theorem grouping_one_group_counterexample :
    (fileGroups "src" c2Entries).map (fun g => (g.1, g.2.length)) =
      [("Show.S01E01", 2), ("Show.S01E01-thumb", 1)] ∧
    (fileGroups "src" c2Entries).length ≠ 1 := by
  decide

/-- C2 amended: in the current `scanDirectory` the three entries form two
groups — the `-thumb.jpg` group has no recognized primary extension and is
dropped — and the scan yields exactly one `EpisodeOrMovie`, whose sidecar
list has exactly one element, the `.srt`; the stated one-group-of-three and
two-sidecar behavior holds of the earlier `scanDirectory` evolution, which
strips a trailing `-thumb` from base names before grouping. -/
theorem grouping_and_scan_results :
    (fileGroups "src" c2Entries).length = 2 ∧
    (videoTasks (fileGroups "src" c2Entries)).map
        (fun t => t.sidecarFiles.map (fun f => f.originalFilename)) = [["Show.S01E01.srt"]] ∧
    (scanDirectoryStep "src" c2Entries [c2Oracle] 10 []).map
        (fun p => p.2.items.map (fun i => i.sidecarFiles.length)) = [[1]] ∧
    (fileGroupsThumbStripped "src" c2Entries).map (fun g => g.2.length) = [3] ∧
    (videoTasks (fileGroupsThumbStripped "src" c2Entries)).map
        (fun t => t.sidecarFiles.map (fun f => f.originalFilename)) =
      [["Show.S01E01.srt", "Show.S01E01-thumb.jpg"]] ∧
    (videoTasks (fileGroupsThumbStripped "src" c2Entries)).map
        (fun t => (okItem (runTaskOld t c2Oracle.ai)).map (fun i => i.sidecarFiles.length)) =
      [some 2] := by
  decide

/-! ### Claim C5 -/

/-- Draining settled results equals folding exactly the fulfilled non-null
items, in order. -/
theorem foldResults_filterMap (bp : MediaBlueprint)
    (rs : List (Except Unit (Option EpisodeOrMovie))) :
    foldResults bp rs = (rs.filterMap okItem).foldl addToBlueprint bp := by
  induction rs generalizing bp with
  | nil => rfl
  | cons r t ih =>
    have hstep : foldResults bp (r :: t) =
        foldResults (match okItem r with | some i => addToBlueprint bp i | none => bp) t := rfl
    rw [hstep, ih]
    cases hr : okItem r <;> simp [List.filterMap_cons, hr]

/-- Splitting the settled results over an append. -/
theorem foldResults_append (bp : MediaBlueprint)
    (xs ys : List (Except Unit (Option EpisodeOrMovie))) :
    foldResults bp (xs ++ ys) = foldResults (foldResults bp xs) ys := by
  simp [foldResults, List.foldl_append]

/-- The fuelled chunk loop with enough fuel settles every task once, chunk by
chunk, and equals one draining pass over all settled results. -/
theorem processChunksAux_eq (c : Nat) (hc : 0 < c) :
    ∀ (fuel : Nat) (pairs : List (VideoTask × TaskOracle)) (bp : MediaBlueprint),
      pairs.length ≤ fuel →
      processChunksAux fuel c pairs bp = foldResults bp (settleChunk pairs) := by
  intro fuel
  induction fuel with
  | zero =>
    intro pairs bp h
    cases pairs with
    | nil => rfl
    | cons p ps => simp at h
  | succ n ih =>
    intro pairs bp h
    cases pairs with
    | nil => rfl
    | cons p ps =>
      show processChunksAux n c ((p :: ps).drop c)
          (foldResults bp (settleChunk ((p :: ps).take c))) = _
      rw [ih ((p :: ps).drop c) _
        (by simp only [List.length_drop, List.length_cons] at h ⊢; omega), ← foldResults_append]
      have hsplit : settleChunk ((p :: ps).take c) ++ settleChunk ((p :: ps).drop c) =
          settleChunk (p :: ps) := by
        simp [settleChunk, ← List.map_append]
      rw [hsplit]

/-- C5: the blueprint produced by the chunked classification loop is exactly
the fold of the successfully settled items in task order — a task that
rejects or settles to null contributes nothing, every other task's item is
still folded in, and processing continues through every chunk of the
directory with no abort. -/
theorem chunk_partial_failure_isolation (c : Nat) (hc : 0 < c)
    (pairs : List (VideoTask × TaskOracle)) (bp : MediaBlueprint) :
    processChunks c pairs bp =
      ((pairs.map (fun p => runTask p.1 p.2)).filterMap okItem).foldl addToBlueprint bp := by
  rw [processChunks, processChunksAux_eq c hc pairs.length pairs bp le_rfl,
    foldResults_filterMap]
  rfl

/-- A minimal classification task for the C5 witness. -/
def taskEx (n : String) : VideoTask :=
  { videoFile := { sourcePath := "src/" ++ n ++ ".mkv", originalFilename := n ++ ".mkv" }
    sidecarFiles := [] }

/-- A successful collaborator outcome for the C5 witness. -/
def okOracleEx (t : String) : TaskOracle :=
  { ai := Except.ok (some { title := t, season := some 1, episode := some 2, type := MediaType.show })
    roles := fun _ => none }

/-- A rejected classification promise for the C5 witness. -/
def rejectedOracleEx : TaskOracle := { ai := Except.error (), roles := fun _ => none }

/-- A chunk of three tasks whose middle task rejects. -/
def chunkEx : List (VideoTask × TaskOracle) :=
  [(taskEx "a", okOracleEx "T1"), (taskEx "b", rejectedOracleEx), (taskEx "c", okOracleEx "T3")]

/-- Witness for C5: with a chunk of three tasks whose second rejects, the
first and third items are still folded in and the failed task contributes
nothing. -/
theorem chunk_partial_failure_isolation_witness :
    processChunks 3 chunkEx [] =
      ((chunkEx.map (fun p => runTask p.1 p.2)).filterMap okItem).foldl addToBlueprint [] ∧
    (processChunks 3 chunkEx []).map Prod.fst = ["T1", "T3"] :=
  ⟨chunk_partial_failure_isolation 3 (by decide) chunkEx [], by decide⟩

/-! ### Claim C4 -/

/-- C4: if the canonical-title collaborator fails (returns no mapping),
`consolidateBlueprint` returns the raw blueprint unchanged — same keys, same
records, same items, tallies and types, nothing renamed — and the link
synchronization stage runs on that degraded result exactly as it would on the
raw blueprint. -/
theorem consolidate_collaborator_failure (raw : MediaBlueprint) (existing : List String)
    (targetRoot : String) :
    consolidateBlueprint raw none = raw ∧
    generateLinks (consolidateBlueprint raw none) existing targetRoot =
      generateLinks raw existing targetRoot := by
  have h : consolidateBlueprint raw none = raw := by
    unfold consolidateBlueprint
    cases raw with
    | nil => simp
    | cons a l => simp
  exact ⟨h, by rw [h]⟩

/-! ### Claim C6 -/

/-- C6: in the `generateLinks` inner loop for a show-type record, an item
lacking a season or an episode produces no links and no directories, and an
item whose identity string `<clean title>-S<season>E<episode>` (unpadded) is
in the existing-state set is skipped entirely. -/
theorem show_item_skip_rules (cleanTitle seriesDirName seriesPath : String)
    (existing : List String) (item : EpisodeOrMovie) :
    (item.season = none ∨ item.episode = none →
      itemActions MediaType.show cleanTitle seriesDirName seriesPath existing item = []) ∧
    (∀ s e, item.season = some s → item.episode = some e →
      existing.contains (uniqueIdOf cleanTitle s e) = true →
      itemActions MediaType.show cleanTitle seriesDirName seriesPath existing item = []) := by
  constructor
  · rintro (h | h)
    · cases he : item.episode <;> simp [itemActions, h, he]
    · cases hs : item.season <;> simp [itemActions, h, hs]
  · intro s e hs he hc
    simp only [itemActions, hs, he]
    rw [if_pos hc]

/-- Witness for C6 at a concrete item: with season 1, episode 2 and the
identity `T-S1E2` already present, the item yields no actions. -/
theorem show_item_skip_rules_witness :
    itemActions MediaType.show "T" "T" "root/T" ["T-S1E2"] (exItem "T") = [] :=
  (show_item_skip_rules "T" "T" "root/T" ["T-S1E2"] (exItem "T")).2 1 2 rfl rfl (by decide)

/-! ### Claim C7 -/

/-- Filesystem response used by the C7 witness. -/
def envEx : FsEnv :=
  { errAt := fun d =>
      if d = "tgt/existing" then some FsErr.eexist
      else if d = "tgt/broken" then some FsErr.other
      else none }

/-- C7: the link target is the source made relative to the destination's
directory exactly for a soft link in relative path-mode, the absolute source
for a soft link in absolute path-mode, and the absolute source for a hard
link regardless of path-mode; an already-existing destination is treated as
success (nothing logged, nothing created over it); any other error is logged
for that file only; and every link action of a run settles to its own
`createLink` result, independent of the outcomes of the others. -/
theorem createLink_contract :
    (∀ source dest : String,
      resolvedLinkSource "soft" "relative" source dest = relativePath (dirname dest) source) ∧
    (∀ source dest : String, resolvedLinkSource "soft" "absolute" source dest = source) ∧
    (∀ pathMode source dest : String, resolvedLinkSource "hard" pathMode source dest = source) ∧
    (∀ (env : FsEnv) (linkType pathMode source dest : String),
      env.errAt dest = some FsErr.eexist →
      createLink env linkType pathMode source dest = { created := none, logged := false }) ∧
    (∀ (env : FsEnv) (linkType pathMode source dest : String),
      env.errAt dest = some FsErr.other →
      createLink env linkType pathMode source dest = { created := none, logged := true }) ∧
    (∀ (env : FsEnv) (linkType pathMode : String) (acts : List FsAction),
      runLinkActions env linkType pathMode acts =
        (linksOf acts).map (fun sd => createLink env linkType pathMode sd.1 sd.2)) := by
  refine ⟨?_, ?_, ?_, ?_, ?_, ?_⟩
  · intro source dest
    simp [resolvedLinkSource]
  · intro source dest
    rw [resolvedLinkSource, if_neg (by decide)]
  · intro pathMode source dest
    rw [resolvedLinkSource, if_neg]
    rintro ⟨h, -⟩
    exact absurd h (by decide)
  · intro env linkType pathMode source dest h
    unfold createLink
    rw [h]
  · intro env linkType pathMode source dest h
    unfold createLink
    rw [h]
  · intro env linkType pathMode acts
    induction acts with
    | nil => rfl
    | cons a t ih =>
      cases a with
      | mkdir p => simpa [runLinkActions, linksOf] using ih
      | link s d => simpa [runLinkActions, linksOf] using ih

/-- Witness for C7: on a concrete filesystem response, an already-existing
destination settles silently and without a link, and a failing destination
settles with a logged error and without a link. -/
theorem createLink_contract_witness :
    createLink envEx "hard" "absolute" "src/a.mkv" "tgt/existing" =
      { created := none, logged := false } ∧
    createLink envEx "hard" "absolute" "src/a.mkv" "tgt/broken" =
      { created := none, logged := true } :=
  ⟨createLink_contract.2.2.2.1 envEx "hard" "absolute" "src/a.mkv" "tgt/existing" (by decide),
   createLink_contract.2.2.2.2.1 envEx "hard" "absolute" "src/a.mkv" "tgt/broken" (by decide)⟩

/-! ### Association-list lemmas for the consolidation claims -/

/-- Lookup on a cons cell. -/
theorem alookup_cons {α : Type} (a : String) (v : α) (m : List (String × α)) (k : String) :
    alookup ((a, v) :: m) k = if a = k then some v else alookup m k := by
  by_cases h : a = k
  · simp [alookup, List.find?_cons_of_pos, h]
  · simp only [alookup, h, if_false]
    rw [List.find?_cons_of_neg]
    simp [h]

/-- Lookup misses exactly when no binding carries the key. -/
theorem alookup_eq_none {α : Type} {m : List (String × α)} {k : String} :
    alookup m k = none ↔ ∀ p ∈ m, p.1 ≠ k := by
  simp [alookup, List.find?_eq_none]

/-- Membership in an in-place update comes from membership in the original
list, with only the value at the updated key transformed. -/
theorem mem_aupdate {α : Type} {m : List (String × α)} {k : String} {f : α → α}
    {p : String × α} (hp : p ∈ aupdate m k f) :
    ∃ q ∈ m, p = (q.1, if q.1 = k then f q.2 else q.2) := by
  rcases List.mem_map.mp hp with ⟨q, hq, rfl⟩
  refine ⟨q, hq, ?_⟩
  by_cases h : q.1 = k <;> simp [h]

/-- Assigning a key-disjoint source with nodup keys appends its bindings. -/
theorem objAssign_disjoint (v : List (String × Nat)) :
    ∀ acc : List (String × Nat), (v.map Prod.fst).Nodup →
      (∀ p ∈ acc, ∀ q ∈ v, p.1 ≠ q.1) → objAssign acc v = acc ++ v := by
  induction v with
  | nil =>
    intro acc _ _
    simp [objAssign]
  | cons h t ih =>
    intro acc hnd hdisj
    rw [List.map_cons, List.nodup_cons] at hnd
    have hnd' : (t.map Prod.fst).Nodup := hnd.2
    have hnotin : h.1 ∉ t.map Prod.fst := hnd.1
    have hnone : alookup acc h.1 = none :=
      alookup_eq_none.mpr (fun p hp => hdisj p hp h (by simp))
    have hset : aset acc h.1 h.2 = acc ++ [h] := by
      simp [aset, hnone]
    have hrec : objAssign acc (h :: t) = objAssign (aset acc h.1 h.2) t := rfl
    rw [hrec, hset, ih (acc ++ [h]) hnd' ?_]
    · simp
    · intro p hp q hq
      rcases List.mem_append.mp hp with hp | hp
      · exact hdisj p hp q (List.mem_cons_of_mem _ hq)
      · have hpe : p = h := by simpa using hp
        subst hpe
        intro he
        exact hnotin (he ▸ List.mem_map_of_mem Prod.fst hq)

/-- Assigning a nodup-keyed tally into an empty object reproduces it. -/
theorem objAssign_nil (v : List (String × Nat)) (h : (v.map Prod.fst).Nodup) :
    objAssign [] v = v := by
  simpa using objAssign_disjoint v [] h (by simp)

/-- The year election changes only `canonicalYear`. -/
theorem electYear_fields (s : MediaSeries) :
    (electYear s).items = s.items ∧ (electYear s).titleVotes = s.titleVotes ∧
    (electYear s).yearVotes = s.yearVotes ∧ (electYear s).type = s.type ∧
    (electYear s).canonicalTitle = s.canonicalTitle := by
  unfold electYear
  split <;> exact ⟨rfl, rfl, rfl, rfl, rfl⟩

/-! ### Claim C1 -/

/-- Raw record of the Chinese-title variant: two items, two year votes. -/
def cxSeries1 : MediaSeries :=
  { titleVotes := [("瑞克和莫蒂", 2)], yearVotes := [("2013", 2)]
    items := [exItem "a1", exItem "a2"], type := MediaType.show }

/-- Raw record of the English-title variant: three items, three year votes. -/
def cxSeries2 : MediaSeries :=
  { titleVotes := [("Rick and Morty", 3)], yearVotes := [("2013", 3)]
    items := [exItem "b1", exItem "b2", exItem "b3"], type := MediaType.show }

/-- C1 counterexample: merging the two variants concatenates the five items,
but the overlapping year key `2013` carries the later record's count 3, not
the sum 2 + 3 = 5 — the tallies are overwritten, not summed. -/
theorem merge_votes_not_summed_counterexample :
    (alookup (consolidateBlueprint [("瑞克和莫蒂", cxSeries1), ("Rick and Morty", cxSeries2)]
        (some [("瑞克和莫蒂", "Rick and Morty"), ("Rick and Morty", "Rick and Morty")]))
        "Rick and Morty").map (fun s => (s.items.length, alookup s.yearVotes "2013")) =
      some (5, some 3) ∧
    (3 : Nat) ≠ 2 + 3 := by
  decide

/-- C1 amended: when two raw records merge into the same canonical title, the
canonical record's items are the concatenation of the two item lists, and its
`titleVotes` and `yearVotes` are the `Object.assign` union of the source
tallies — at a key present in both, the later-merged record's count
overwrites the earlier one instead of being summed. -/
theorem merge_two_records (t1 t2 c : String) (s1 s2 : MediaSeries) (hne : t1 ≠ t2)
    (h1 : (s1.titleVotes.map Prod.fst).Nodup) (h2 : (s1.yearVotes.map Prod.fst).Nodup) :
    ∃ s : MediaSeries,
      alookup (consolidateBlueprint [(t1, s1), (t2, s2)] (some [(t1, c), (t2, c)])) c = some s ∧
      s.items = s1.items ++ s2.items ∧
      s.titleVotes = objAssign s1.titleVotes s2.titleVotes ∧
      s.yearVotes = objAssign s1.yearVotes s2.yearVotes ∧
      s.type = s1.type ∧
      s.canonicalTitle = some c := by
  have hm1 : mergeStep [(t1, s1), (t2, s2)] [] (t1, c) =
      [(c, { titleVotes := s1.titleVotes, yearVotes := s1.yearVotes, items := s1.items,
             type := s1.type, canonicalTitle := some c, canonicalYear := none })] := by
    simp only [mergeStep, alookup_cons, if_pos rfl]
    simp [aupdate, alookup, freshRecord, objAssign_nil s1.titleVotes h1,
      objAssign_nil s1.yearVotes h2]
  have hm2 : mergeStep [(t1, s1), (t2, s2)]
      [(c, { titleVotes := s1.titleVotes, yearVotes := s1.yearVotes, items := s1.items,
             type := s1.type, canonicalTitle := some c, canonicalYear := none })] (t2, c) =
      [(c, { titleVotes := objAssign s1.titleVotes s2.titleVotes,
             yearVotes := objAssign s1.yearVotes s2.yearVotes,
             items := s1.items ++ s2.items,
             type := s1.type, canonicalTitle := some c, canonicalYear := none })] := by
    simp only [mergeStep, alookup_cons, if_neg hne, if_pos rfl]
    simp [aupdate, alookup]
  refine ⟨electYear { titleVotes := objAssign s1.titleVotes s2.titleVotes,
                      yearVotes := objAssign s1.yearVotes s2.yearVotes,
                      items := s1.items ++ s2.items,
                      type := s1.type, canonicalTitle := some c,
                      canonicalYear := none }, ?_, ?_, ?_, ?_, ?_, ?_⟩
  · have hfold : consolidateBlueprint [(t1, s1), (t2, s2)] (some [(t1, c), (t2, c)]) =
        electYears (mergeStep [(t1, s1), (t2, s2)] (mergeStep [(t1, s1), (t2, s2)] [] (t1, c)) (t2, c)) := by
      simp [consolidateBlueprint]
    rw [hfold, hm1, hm2]
    simp [electYears, alookup_cons]
  · exact (electYear_fields _).1
  · exact (electYear_fields _).2.1
  · exact (electYear_fields _).2.2.1
  · exact (electYear_fields _).2.2.2.1
  · exact (electYear_fields _).2.2.2.2

/-- Witness for C1 amended at the Rick and Morty example: the two raw
records merge into one canonical record with the five items concatenated and
the tallies assigned. -/
theorem merge_two_records_witness :
    ∃ s : MediaSeries,
      alookup (consolidateBlueprint [("瑞克和莫蒂", cxSeries1), ("Rick and Morty", cxSeries2)]
        (some [("瑞克和莫蒂", "Rick and Morty"), ("Rick and Morty", "Rick and Morty")]))
        "Rick and Morty" = some s ∧
      s.items = cxSeries1.items ++ cxSeries2.items ∧
      s.titleVotes = objAssign cxSeries1.titleVotes cxSeries2.titleVotes ∧
      s.yearVotes = objAssign cxSeries1.yearVotes cxSeries2.yearVotes ∧
      s.type = cxSeries1.type ∧
      s.canonicalTitle = some "Rick and Morty" :=
  merge_two_records "瑞克和莫蒂" "Rick and Morty" "Rick and Morty" cxSeries1 cxSeries2
    (by decide) (by decide) (by decide)

/-! ### Claim C3 -/

/-- One merge iteration preserves the invariant that every record's
`canonicalTitle` equals its key. -/
theorem mergeStep_canonicalTitle (raw final : MediaBlueprint) (pr : String × String)
    (hinv : ∀ p ∈ final, p.2.canonicalTitle = some p.1) :
    ∀ p ∈ mergeStep raw final pr, p.2.canonicalTitle = some p.1 := by
  intro p hp
  unfold mergeStep at hp
  cases halo : alookup raw pr.1 with
  | none =>
    rw [halo] at hp
    exact hinv p hp
  | some sM =>
    rw [halo] at hp
    simp only at hp
    have hinv' : ∀ r ∈ (if (alookup final pr.2).isSome then final
        else final ++ [(pr.2, freshRecord pr.2 sM.type)]), r.2.canonicalTitle = some r.1 := by
      by_cases hc : (alookup final pr.2).isSome
      · rw [if_pos hc]
        exact hinv
      · rw [if_neg hc]
        intro r hr
        rcases List.mem_append.mp hr with hr | hr
        · exact hinv r hr
        · rw [List.mem_singleton] at hr
          rw [hr]
          rfl
    rcases mem_aupdate hp with ⟨q, hq, rfl⟩
    by_cases h : q.1 = pr.2 <;> simp only [h, if_true, if_false]
    · exact (by simpa [h] using hinv' q hq)
    · exact hinv' q hq

/-- The whole merge fold preserves the canonical-title invariant. -/
theorem mergeFold_canonicalTitle (raw : MediaBlueprint) (m : List (String × String)) :
    ∀ final : MediaBlueprint, (∀ p ∈ final, p.2.canonicalTitle = some p.1) →
      ∀ p ∈ m.foldl (mergeStep raw) final, p.2.canonicalTitle = some p.1 := by
  induction m with
  | nil =>
    intro final hinv p hp
    exact hinv p hp
  | cons pr t ih =>
    intro final hinv p hp
    exact ih (mergeStep raw final pr) (mergeStep_canonicalTitle raw final pr hinv) p hp

/-- Raw record used by the C3 counterexample and witness. -/
def c3Series : MediaSeries :=
  { titleVotes := [("A", 1)], yearVotes := [], items := [], type := MediaType.show }

/-- C3 counterexample: when the collaborator fails, the raw blueprint comes
back as-is and its record still has no `canonicalTitle`, so not every
collaborator outcome yields records whose `canonicalTitle` equals their key. -/
theorem canonical_title_unset_on_failure_counterexample :
    consolidateBlueprint [("A", c3Series)] none = [("A", c3Series)] ∧
    c3Series.canonicalTitle = none ∧
    c3Series.canonicalTitle ≠ some "A" := by
  decide

/-- C3 amended: whenever the collaborator does return a mapping, every record
of the consolidated blueprint has `canonicalTitle` set to exactly the key it
is stored under; on collaborator failure the raw records are returned with
`canonicalTitle` left as it was (unset for records built by scanning). -/
theorem canonical_title_equals_key (raw : MediaBlueprint) (m : List (String × String)) :
    ∀ p ∈ consolidateBlueprint raw (some m), p.2.canonicalTitle = some p.1 := by
  intro p hp
  unfold consolidateBlueprint at hp
  by_cases hr : raw.length = 0
  · simp [hr] at hp
  · simp only [hr, if_false] at hp
    rcases List.mem_map.mp hp with ⟨q, hq, rfl⟩
    have := mergeFold_canonicalTitle raw m [] (by simp) q hq
    simpa [(electYear_fields q.2).2.2.2.2] using this

/-- The consolidated record of the C3 witness input. -/
def mergedB : MediaSeries :=
  { titleVotes := [("A", 1)], yearVotes := [], items := [], type := MediaType.show
    canonicalTitle := some "B" }

/-- Witness for C3 amended: consolidating one record under mapping `A ↦ B`
stores it under key `B` with `canonicalTitle = some "B"`. -/
theorem canonical_title_equals_key_witness :
    ("B", mergedB) ∈ consolidateBlueprint [("A", c3Series)] (some [("A", "B")]) ∧
    mergedB.canonicalTitle = some "B" :=
  ⟨by decide, canonical_title_equals_key [("A", c3Series)] [("A", "B")] ("B", mergedB) (by decide)⟩

/-! ### Claim C9 -/

/-- One merge iteration preserves any item predicate that holds of the items
already folded and of the items of the raw record the iteration merges. -/
theorem mergeStep_items_prov (raw final : MediaBlueprint) (pr : String × String)
    (Q : EpisodeOrMovie → Prop)
    (hQ : ∀ s', alookup raw pr.1 = some s' → ∀ it ∈ s'.items, Q it)
    (hinv : ∀ p ∈ final, ∀ it ∈ p.2.items, Q it) :
    ∀ p ∈ mergeStep raw final pr, ∀ it ∈ p.2.items, Q it := by
  intro p hp
  unfold mergeStep at hp
  cases halo : alookup raw pr.1 with
  | none =>
    rw [halo] at hp
    exact hinv p hp
  | some sM =>
    rw [halo] at hp
    simp only at hp
    have hinv' : ∀ r ∈ (if (alookup final pr.2).isSome then final
        else final ++ [(pr.2, freshRecord pr.2 sM.type)]), ∀ it ∈ r.2.items, Q it := by
      by_cases hc : (alookup final pr.2).isSome
      · rw [if_pos hc]
        exact hinv
      · rw [if_neg hc]
        intro r hr
        rcases List.mem_append.mp hr with hr | hr
        · exact hinv r hr
        · rw [List.mem_singleton] at hr
          intro it hit
          rw [hr] at hit
          simp [freshRecord] at hit
    rcases mem_aupdate hp with ⟨q, hq, rfl⟩
    intro it hit
    by_cases h : q.1 = pr.2
    · simp only [h, if_true] at hit
      rcases List.mem_append.mp hit with hit | hit
      · exact hinv' q hq it hit
      · exact hQ sM halo it hit
    · simp only [h, if_false] at hit
      exact hinv' q hq it hit

/-- Every item of every consolidated record came from a raw record looked up
through some pair of the collaborator's mapping. -/
theorem consolidate_items_prov (raw : MediaBlueprint) (m : List (String × String))
    (Q : EpisodeOrMovie → Prop)
    (hQ : ∀ pr ∈ m, ∀ s', alookup raw pr.1 = some s' → ∀ it ∈ s'.items, Q it) :
    ∀ p ∈ consolidateBlueprint raw (some m), ∀ it ∈ p.2.items, Q it := by
  have hfold : ∀ (ms : List (String × String)) (final : MediaBlueprint),
      (∀ pr ∈ ms, ∀ s', alookup raw pr.1 = some s' → ∀ it ∈ s'.items, Q it) →
      (∀ p ∈ final, ∀ it ∈ p.2.items, Q it) →
      ∀ p ∈ ms.foldl (mergeStep raw) final, ∀ it ∈ p.2.items, Q it := by
    intro ms
    induction ms with
    | nil =>
      intro final _ hinv p hp
      exact hinv p hp
    | cons pr t ih =>
      intro final hms hinv p hp
      exact ih (mergeStep raw final pr)
        (fun pr' hpr' => hms pr' (List.mem_cons_of_mem _ hpr'))
        (mergeStep_items_prov raw final pr Q (hms pr (by simp)) hinv) p hp
  intro p hp it hit
  unfold consolidateBlueprint at hp
  by_cases hr : raw.length = 0
  · simp [hr] at hp
  · simp only [hr, if_false] at hp
    rcases List.mem_map.mp hp with ⟨q, hq, rfl⟩
    have hitems : (electYear q.2).items = q.2.items := (electYear_fields q.2).1
    exact hfold m [] hQ (by simp) q hq it (by simpa [hitems] using hit)

/-- C9: a raw record whose title is absent from the collaborator's mapping is
silently dropped — none of its items (assumed, as in the source where items
are distinct objects, not to occur in any record the mapping does reach)
appears in any record of the consolidated blueprint. -/
theorem unmapped_record_dropped (raw : MediaBlueprint) (m : List (String × String))
    (t : String) (s : MediaSeries) (item : EpisodeOrMovie)
    (ht : alookup raw t = some s) (hitem : item ∈ s.items)
    (habs : ∀ c, (t, c) ∉ m)
    (hdisj : ∀ pr ∈ m, ∀ s', alookup raw pr.1 = some s' → item ∉ s'.items) :
    ∀ p ∈ consolidateBlueprint raw (some m), item ∉ p.2.items := by
  intro p hp hit
  exact consolidate_items_prov raw m (fun it => it ≠ item)
    (fun pr hpr s' hs' it hit' heq => hdisj pr hpr s' hs' (heq ▸ hit'))
    p hp item hit rfl

/-- Raw record reached by the C9 witness mapping. -/
def c9SeriesA : MediaSeries :=
  { titleVotes := [("A", 1)], yearVotes := [], items := [exItem "a"], type := MediaType.show }

/-- Raw record absent from the C9 witness mapping. -/
def c9SeriesB : MediaSeries :=
  { titleVotes := [("B", 1)], yearVotes := [], items := [exItem "b"], type := MediaType.show }

/-- Raw blueprint of the C9 witness. -/
def c9Raw : MediaBlueprint := [("A", c9SeriesA), ("B", c9SeriesB)]

/-- Consolidated record of the C9 witness input. -/
def c9MergedA2 : MediaSeries :=
  { titleVotes := [("A", 1)], yearVotes := [], items := [exItem "a"], type := MediaType.show
    canonicalTitle := some "A2" }

/-- Witness for C9: with mapping `A ↦ A2` only, record `B` is dropped and its
item appears in no consolidated record. -/
theorem unmapped_record_dropped_witness :
    ("A2", c9MergedA2) ∈ consolidateBlueprint c9Raw (some [("A", "A2")]) ∧
    exItem "b" ∉ c9MergedA2.items :=
  ⟨by decide,
   unmapped_record_dropped c9Raw [("A", "A2")] "B" c9SeriesB (exItem "b")
    (by decide) (by decide)
    (by
      intro c hc
      rw [List.mem_singleton] at hc
      exact absurd (show ("B" : String) = "A" from congrArg Prod.fst hc) (by decide))
    (by
      intro pr hpr s' hs'
      rw [List.mem_singleton] at hpr
      subst hpr
      have hv : alookup c9Raw "A" = some c9SeriesA := by decide
      have : some s' = some c9SeriesA := hs'.symm.trans hv
      rw [Option.some.injEq] at this
      subst this
      decide)
    ("A2", c9MergedA2) (by decide)⟩

/-! ### Claim C8 -/

/-- Sidecar used by the C8 counterexample: an uppercase image extension with
a classified role. -/
def jpgUpperSidecar : MediaFile :=
  { sourcePath := "src/cover.JPG", originalFilename := "cover.JPG", role := some "poster" }

/-- C8 counterexample: a sidecar named `cover.JPG` with role `poster` links
with the lowercased extension `.jpg`, not with its original extension `.JPG`
as the claim states. -/
theorem sidecar_name_original_ext_counterexample :
    sidecarFinalName "Show S01E01" jpgUpperSidecar = "Show S01E01-poster.jpg" ∧
    "Show S01E01-poster.jpg" ≠ "Show S01E01-poster.JPG" := by
  decide

/-- C8 amended: a sidecar whose lowercased extension is in the fixed
same-name set links as the base filename plus that lowercased extension,
independently of any classified role; any other sidecar links as the base
filename, plus `-<role>` when a non-empty role was classified, plus its
original extension lowercased. -/
theorem sidecar_name_rules :
    (∀ (base : String) (f : MediaFile) (r1 r2 : Option String),
      sameNameExtensions.contains (strToLower (extname f.originalFilename)) = true →
      sidecarFinalName base { f with role := r1 } = base ++ strToLower (extname f.originalFilename) ∧
      sidecarFinalName base { f with role := r1 } = sidecarFinalName base { f with role := r2 }) ∧
    (∀ (base : String) (f : MediaFile),
      sameNameExtensions.contains (strToLower (extname f.originalFilename)) = false →
      sidecarFinalName base f =
        base ++ sidecarFinalName.roleSuffix f.role ++ strToLower (extname f.originalFilename)) := by
  constructor
  · intro base f r1 r2 h
    constructor
    · simp only [sidecarFinalName]
      rw [if_pos h]
    · simp only [sidecarFinalName]
      rw [if_pos h, if_pos h]
  · intro base f h
    simp only [sidecarFinalName]
    rw [if_neg (by rw [h]; decide)]

/-- Witness for C8 amended: a `.srt` sidecar with role `subtitle` links as
the exact base plus `.srt`, and a lowercase `.jpg` sidecar with role
`poster` links as the base plus `-poster.jpg`. -/
theorem sidecar_name_rules_witness :
    sidecarFinalName "B" { sourcePath := "s", originalFilename := "x.srt", role := some "subtitle" } =
      "B" ++ strToLower (extname "x.srt") ∧
    sidecarFinalName "B" { sourcePath := "s", originalFilename := "c.jpg", role := some "poster" } =
      "B" ++ sidecarFinalName.roleSuffix (some "poster") ++ strToLower (extname "c.jpg") :=
  ⟨(sidecar_name_rules.1 "B" { sourcePath := "s", originalFilename := "x.srt", role := some "subtitle" }
      (some "subtitle") none (by decide)).1,
   sidecar_name_rules.2 "B" { sourcePath := "s", originalFilename := "c.jpg", role := some "poster" }
      (by decide)⟩

/-! ### Claim C10: decimal and pattern lemmas -/

/-- The digit characters are digits. -/
theorem digitChar_isDigit : ∀ d : Nat, d < 10 → (Nat.digitChar d).isDigit = true := by
  decide

/-- Code of a digit character. -/
theorem digitChar_toNat : ∀ d : Nat, d < 10 → (Nat.digitChar d).toNat = 48 + d := by
  decide

/-- Every character the decimal printer emits is a digit. -/
theorem natDigitsAux_digits :
    ∀ (fuel n : Nat), ∀ c ∈ natDigitsAux fuel n, c.isDigit = true := by
  intro fuel
  induction fuel with
  | zero =>
    intro n c hc
    simp [natDigitsAux] at hc
  | succ f ih =>
    intro n c hc
    cases n with
    | zero => simp [natDigitsAux] at hc
    | succ m =>
      rw [natDigitsAux] at hc
      rcases List.mem_append.mp hc with hc | hc
      · exact ih _ c hc
      · rw [List.mem_singleton] at hc
        rw [hc]
        exact digitChar_isDigit _ (Nat.mod_lt _ (by omega))

/-- The printer emits nothing for zero under any fuel. -/
theorem natDigitsAux_zero (fuel : Nat) : natDigitsAux fuel 0 = [] := by
  cases fuel <;> rfl

/-- Folding the decimal parser over the printed digits of `n` appends `n` to
the accumulator scaled by the printed length. -/
theorem natDigitsAux_parse :
    ∀ (fuel n a : Nat), n ≤ fuel →
      List.foldl parseStep a (natDigitsAux fuel n) =
        a * 10 ^ (natDigitsAux fuel n).length + n := by
  intro fuel
  induction fuel with
  | zero =>
    intro n a h
    have hn : n = 0 := by omega
    subst hn
    simp [natDigitsAux]
  | succ f ih =>
    intro n a h
    cases n with
    | zero => simp [natDigitsAux_zero]
    | succ m =>
      rw [natDigitsAux, List.foldl_append]
      have hq : (m + 1) / 10 ≤ f := by
        have := Nat.div_lt_self (Nat.succ_pos m) (by omega : 1 < 10)
        omega
      rw [ih ((m + 1) / 10) a hq]
      have hr : (Nat.digitChar ((m + 1) % 10)).toNat = 48 + (m + 1) % 10 :=
        digitChar_toNat _ (Nat.mod_lt _ (by omega))
      simp only [List.foldl_cons, List.foldl_nil, parseStep, hr, List.length_append,
        List.length_singleton]
      have hdm : 10 * ((m + 1) / 10) + (m + 1) % 10 = m + 1 := Nat.div_add_mod _ _
      have hpow : 10 ^ ((natDigitsAux f ((m + 1) / 10)).length + 1) =
          10 ^ (natDigitsAux f ((m + 1) / 10)).length * 10 := pow_succ 10 _
      rw [hpow]
      ring_nf
      omega

/-- The decimal parse of the printed form of `n` recovers `n`. -/
theorem parseNatDigits_jsString (n : Nat) : parseNatDigits (jsStringNat n).data = n := by
  by_cases h : n = 0
  · subst h
    decide
  · unfold jsStringNat
    rw [if_neg h]
    have := natDigitsAux_parse n n 0 le_rfl
    simpa [parseNatDigits] using this

/-- Leading zeros do not change the decimal parse from a zero accumulator. -/
theorem parse_replicate_zero (k : Nat) (ds : List Char) :
    List.foldl parseStep 0 (List.replicate k '0' ++ ds) = List.foldl parseStep 0 ds := by
  induction k with
  | zero => rfl
  | succ j ih => simpa [List.replicate_succ, parseStep] using ih

/-- Zero-padding does not change the decimal parse. -/
theorem parseNatDigits_padStart2 (s : String) :
    parseNatDigits (padStart2 s).data = parseNatDigits s.data := by
  unfold padStart2
  by_cases h : 2 ≤ s.length
  · rw [if_pos h]
  · rw [if_neg h]
    exact parse_replicate_zero _ _

/-- The padded printed form has at least two characters. -/
theorem padStart2_length (s : String) : 2 ≤ (padStart2 s).data.length := by
  unfold padStart2
  by_cases h : 2 ≤ s.length
  · rw [if_pos h]
    exact h
  · rw [if_neg h]
    have : s.length = s.data.length := rfl
    simp [List.length_replicate]
    omega

/-- Every character of the padded printed form of a number is a digit. -/
theorem padStart2_digits (n : Nat) :
    ∀ c ∈ (padStart2 (jsStringNat n)).data, c.isDigit = true := by
  have hbase : ∀ c ∈ (jsStringNat n).data, c.isDigit = true := by
    intro c hc
    unfold jsStringNat at hc
    by_cases h : n = 0
    · rw [if_pos h] at hc
      simp at hc
      rw [hc]
      decide
    · rw [if_neg h] at hc
      exact natDigitsAux_digits n n c hc
  intro c hc
  unfold padStart2 at hc
  by_cases h : 2 ≤ (jsStringNat n).length
  · rw [if_pos h] at hc
    exact hbase c hc
  · rw [if_neg h] at hc
    rcases List.mem_append.mp hc with hc | hc
    · rw [List.eq_of_mem_replicate hc]
      decide
    · exact hbase c hc

/-- A run of satisfying elements before a failing one is taken whole. -/
theorem takeWhile_append_stop {α : Type} (p : α → Bool) (xs : List α) (y : α) (ys : List α)
    (hx : ∀ x ∈ xs, p x = true) (hy : p y = false) :
    (xs ++ y :: ys).takeWhile p = xs := by
  induction xs with
  | nil => simp [List.takeWhile, hy]
  | cons a t ih =>
    have ha : p a = true := hx a (by simp)
    simp only [List.cons_append, List.takeWhile, ha]
    exact congrArg (fun l => a :: l) (ih (fun x hx' => hx x (List.mem_cons_of_mem _ hx')))

/-- A list of satisfying elements is taken whole. -/
theorem takeWhile_all {α : Type} (p : α → Bool) (xs : List α)
    (hx : ∀ x ∈ xs, p x = true) : xs.takeWhile p = xs := by
  induction xs with
  | nil => rfl
  | cons a t ih =>
    have ha : p a = true := hx a (by simp)
    simp only [List.takeWhile, ha]
    rw [ih (fun x hx' => hx x (List.mem_cons_of_mem _ hx'))]

/-- Dropping the length of the left part of an append leaves the right part. -/
theorem drop_len_append {α : Type} (l₁ l₂ : List α) : (l₁ ++ l₂).drop l₁.length = l₂ := by
  induction l₁ with
  | nil => rfl
  | cons a t ih => exact ih

/-- The probe pattern matched at the head of `S<digits>E<digits>` captures
exactly the two digit runs. -/
theorem matchSEAt_exact (d1 d2 : List Char)
    (h1 : ∀ c ∈ d1, c.isDigit = true) (h1len : 2 ≤ d1.length)
    (h2 : ∀ c ∈ d2, c.isDigit = true) (h2len : 2 ≤ d2.length) :
    matchSEAt ('S' :: (d1 ++ 'E' :: d2)) = some (parseNatDigits d1, parseNatDigits d2) := by
  have hE : ('E' : Char).isDigit = false := by decide
  simp only [matchSEAt]
  rw [if_pos (show charCI 'S' 's' 'S' = true by decide),
    takeWhile_append_stop Char.isDigit d1 'E' d2 h1 hE, drop_len_append,
    if_pos h1len]
  simp only
  rw [if_pos (show charCI 'E' 'e' 'E' = true by decide), takeWhile_all Char.isDigit d2 h2,
    if_pos h2len]

/-- The season and episode fragment written by the link synchronizer is
matched by the probe pattern at its own start and parses back exactly. -/
theorem matchSE_fragment (s e : Nat) : matchSE (seFragment s e).data = some (s, e) := by
  have hdata : (seFragment s e).data =
      'S' :: ((padStart2 (jsStringNat s)).data ++ 'E' :: (padStart2 (jsStringNat e)).data) := by
    simp [seFragment, String.data_append]
  rw [hdata, matchSE]
  rw [matchSEAt_exact (padStart2 (jsStringNat s)).data (padStart2 (jsStringNat e)).data
    (padStart2_digits s) (padStart2_length _) (padStart2_digits e) (padStart2_length _)]
  rw [parseNatDigits_padStart2, parseNatDigits_padStart2,
    parseNatDigits_jsString, parseNatDigits_jsString]

/-- C10: for every season `s` and episode `e`, the fragment
`S<s padded to 2>E<e padded to 2>` written into a show link's filename is
matched by the probe's `S(\d{2,})E(\d{2,})` pattern and its decimal parse
recovers exactly `(s, e)`; consequently the identity the probe records for
such a link equals the unpadded identity string `generateLinks` checks for
the same show item on the next run. -/
theorem probe_link_identity_roundtrip (name : String) (s e : Nat) :
    matchSE (seFragment s e).data = some (s, e) ∧
    probeEntryId name (seFragment s e) = some (uniqueIdOf name s e) := by
  refine ⟨matchSE_fragment s e, ?_⟩
  simp [probeEntryId, matchSE_fragment s e, uniqueIdOf]

end AIScraper
